import Mathlib

/-!
Shallow embedding of the tourist-safety dashboard's view-model logic.

Timestamps are modelled as integers of milliseconds since the epoch, the
value produced by the original code's date parsing (`new Date(s).getTime()`
and `Date.now()` both yield such a number).  The original compares the
float quotient `timeDiff / 3600000` against `6`; that quotient equals `6`
exactly when `timeDiff = 21600000`, and for every other integer `timeDiff`
representable as a double the rounded quotient stays on the same side of
`6`, so the comparison is equivalent to the exact integer comparison
`timeDiff > 21600000` used here.
-/

namespace SafeTouristWatch

/-- Embedded related tourist row (`app_a857ad95a4_tourists` relationship
requested by the dashboard queries). -/
structure TouristInfo where
  name : String
  nationality : String
  tourist_code : String
  emergency_contact : String
deriving DecidableEq, Repr

/-- A row of `app_a857ad95a4_location_logs` as consumed by the dashboard,
with the optionally embedded tourist row.  Coordinates play no computational
role in the claims and are carried as integers. -/
structure LocationLog where
  id : String
  tourist_id : String
  latitude : Int
  longitude : Int
  timestamp : Nat
  address : Option String
  accuracy : Option String
  in_restricted_zone : Bool
  tourists : Option TouristInfo
deriving DecidableEq, Repr

/-- A row of `app_a857ad95a4_incidents` as consumed by `IncidentsList`. -/
structure Incident where
  id : String
  user_id : String
  tourist_id : String
  incident_id : String
  description : String
  status : String
  latitude : Int
  longitude : Int
  created_at : Nat
  resolved_at : Option Nat
  tourists : Option TouristInfo
deriving DecidableEq, Repr

/-- A row of `app_a857ad95a4_efirs` as consumed by `EfirManagement`. -/
structure EFir where
  id : String
  efir_id : String
  tourist_id : String
  user_id : String
  reason : String
  description : Option String
  status : String
  assigned_to : Option String
  generated_at : Nat
  filed_at : Option Nat
  created_at : Nat
  updated_at : Nat
  tourists : Option TouristInfo
deriving DecidableEq, Repr

/-- Milliseconds in six hours: the staleness threshold `hoursAgo > 6`. -/
def sixHoursMs : Int := 21600000

/-- `Date.now() - new Date(l.timestamp).getTime()` exceeds six hours.
The subtraction is carried out in `Int` because the original JavaScript
difference may be negative for a timestamp in the future. -/
def isStale (now ts : Nat) : Bool :=
  decide (sixHoursMs < (now : Int) - (ts : Int))

/-- Result of `getLocationStatus` in `tourist-map` (part_000):
`'safe' | 'restricted' | 'outdated'`. -/
inductive LocationStatus where
  | safe
  | restricted
  | outdated
deriving DecidableEq, Repr

/-- `getLocationStatus` from the tourist-map component (part_000, lines
86–99): restricted-zone check first, then the six-hour staleness check. -/
def getLocationStatus (now : Nat) (location : LocationLog) : LocationStatus :=
  if location.in_restricted_zone then
    .restricted
  else if isStale now location.timestamp then
    .outdated
  else
    .safe

/-- The badge record returned by `getLocationStatus` in
`TouristMonitoring.tsx` (lines 163–188). -/
structure StatusBadge where
  status : String
  variant : String
  color : String
deriving DecidableEq, Repr

/-- `getLocationStatus` from `TouristMonitoring.tsx` (lines 163–188). -/
def getLocationStatusTM (now : Nat) (location : LocationLog) : StatusBadge :=
  if location.in_restricted_zone then
    { status := "Restricted Zone", variant := "destructive", color := "bg-destructive" }
  else if isStale now location.timestamp then
    { status := "Outdated", variant := "secondary", color := "bg-muted-foreground" }
  else
    { status := "Safe", variant := "outline", color := "bg-success" }

/-- `getMarkerColor` from `LiveLocationMap.tsx` (lines 91–99). -/
def getMarkerColor (now : Nat) (location : LocationLog) : String :=
  if location.in_restricted_zone then
    "#ef4444"
  else if isStale now location.timestamp then
    "#6b7280"
  else
    "#22c55e"

/-- One step of the `locations.reduce` in `LiveLocationMap.tsx` (lines
82–89) and `SimpleLiveLocationMap.tsx` (lines 34–41): look for an already
accumulated record of the same tourist; when none exists, or the incoming
record is strictly newer, drop every accumulated record of that tourist and
push the incoming record at the end. -/
def latestStep (acc : List LocationLog) (location : LocationLog) : List LocationLog :=
  match acc.find? (fun l => l.tourist_id == location.tourist_id) with
  | none =>
      (acc.filter fun l => l.tourist_id != location.tourist_id) ++ [location]
  | some existing =>
      if existing.timestamp < location.timestamp then
        (acc.filter fun l => l.tourist_id != location.tourist_id) ++ [location]
      else
        acc

/-- `latestLocationsByTourist` from `LiveLocationMap.tsx` /
`SimpleLiveLocationMap.tsx`. -/
def latestLocationsByTourist (locations : List LocationLog) : List LocationLog :=
  locations.foldl latestStep []

/-- One step of the `reduce` in `fetchLocationData` of
`TouristMonitoring.tsx` (lines 61–78): `findIndex` of the first accumulated
record with the same tourist; push at the end when there is none, otherwise
replace it in place when the incoming record is strictly newer.  The
`findIndex`/`acc[existingIndex] = location` pair is rendered as a structural
recursion that replaces the first record whose `tourist_id` matches. -/
def latestStepTM : List LocationLog → LocationLog → List LocationLog
  | [], location => [location]
  | existing :: rest, location =>
      if existing.tourist_id == location.tourist_id then
        if existing.timestamp < location.timestamp then
          location :: rest
        else
          existing :: rest
      else
        existing :: latestStepTM rest location

/-- `latestLocations` from `fetchLocationData` in `TouristMonitoring.tsx`. -/
def latestLocationsTM (locations : List LocationLog) : List LocationLog :=
  locations.foldl latestStepTM []

/-- The status branch of `filteredAndSortedIncidents` in
`incidents-list.tsx` (lines 66–69). -/
def filterIncidentsByStatus (statusFilter : String) (incidents : List Incident) :
    List Incident :=
  if statusFilter != "all" then
    incidents.filter fun incident => incident.status == statusFilter
  else
    incidents

/-- `String.prototype.toLowerCase` as used on the ASCII status strings:
per-character lowercasing. -/
def toLowerCase (s : String) : String :=
  ⟨s.data.map Char.toLower⟩

/-- The status branch of the filter effect in `EfirManagement` (part_003,
lines 53–55): `efir.status.toLowerCase() === selectedStatus`. -/
def filterEfirsByStatus (selectedStatus : String) (efirs : List EFir) : List EFir :=
  if selectedStatus != "all" then
    efirs.filter fun efir => toLowerCase efir.status == selectedStatus
  else
    efirs

/-- The `created_at` comparator of the sort in `filteredAndSortedIncidents`
(`incidents-list.tsx`, lines 72–96), with `aValue`/`bValue` the parsed
millisecond values of `created_at`.  `asc` is `sortOrder === 'asc'`. -/
def compareByCreatedAt (asc : Bool) (a b : Incident) : Int :=
  let aValue := a.created_at
  let bValue := b.created_at
  if aValue < bValue then (if asc then -1 else 1)
  else if bValue < aValue then (if asc then 1 else -1)
  else 0

/-- The order relation induced by the comparator: `compare a b ≤ 0`.  A
correct comparison sort returns a permutation of its input that is sorted
with respect to this relation. -/
def incidentLe (asc : Bool) (a b : Incident) : Bool :=
  decide (compareByCreatedAt asc a b ≤ 0)

/-- `filtered.sort(comparator)` on the `created_at` key, rendered with
`List.mergeSort`; on collections with pairwise-distinct keys every
comparison sort produces this same list. -/
def sortIncidentsByCreatedAt (asc : Bool) (incidents : List Incident) :
    List Incident :=
  incidents.mergeSort (incidentLe asc)

/-- The update actions rendered by `EfirManagement` (part_003, lines
321–339): a `Mark as Filed` button only in status `Pending` and a
`Mark as Resolved` button only in status `Filed`; each action is named by
the status it moves to. -/
def efirAvailableActions (status : String) : List String :=
  (if status == "Pending" then ["Filed"] else []) ++
  (if status == "Filed" then ["Resolved"] else [])

/-- The patch body built by `updateEfirStatus` (part_003, lines 88–120):
always `status` and `updated_at`, plus `filed_at` exactly when the new
status is `Filed`. -/
structure EfirUpdatePayload where
  status : String
  updated_at : Nat
  filed_at : Option Nat
deriving DecidableEq, Repr

/-- `updateEfirStatus`'s `updates` object, with `now` the current time. -/
def mkEfirUpdate (now : Nat) (newStatus : String) : EfirUpdatePayload :=
  let updates : EfirUpdatePayload := { status := newStatus, updated_at := now, filed_at := none }
  if newStatus == "Filed" then { updates with filed_at := some now } else updates

/-- The patch body built by `handleStatusUpdate` in `incidents-list.tsx`
(lines 141–154): the TypeScript type of `updateData` is
`{ status: string; resolved_at?: string }`, so no other column can occur in
the payload. -/
structure IncidentUpdatePayload where
  status : String
  resolved_at : Option Nat
deriving DecidableEq, Repr

/-- `handleStatusUpdate`'s `updateData` object. -/
def mkIncidentUpdate (now : Nat) (newStatus : String) : IncidentUpdatePayload :=
  let updateData : IncidentUpdatePayload := { status := newStatus, resolved_at := none }
  if newStatus == "resolved" then { updateData with resolved_at := some now } else updateData

/-- Backend partial-update semantics of `update(updateData).eq('id', ...)`:
columns present in the payload are overwritten, absent columns keep their
value. -/
def applyIncidentUpdate (u : IncidentUpdatePayload) (i : Incident) : Incident :=
  { i with
    status := u.status
    resolved_at := match u.resolved_at with
      | some t => some t
      | none => i.resolved_at }

/-- The notification items kept by `NotificationSystem`
(`notification-system.tsx`). -/
structure NotificationItem where
  id : String
  type : String
  title : String
  description : String
  tourist : String
  location : String
  timestamp : Nat
  severity : String
deriving DecidableEq, Repr

/-- The insertion performed by both subscription handlers in
`notification-system.tsx` (lines 215 and 301):
`[newNotification, ...prev.slice(0, 9)]`. -/
def insertNotification (n : NotificationItem) (prev : List NotificationItem) :
    List NotificationItem :=
  n :: prev.take 9

/-- `removeNotification` (lines 340–342). -/
def removeNotification (id : String) (prev : List NotificationItem) :
    List NotificationItem :=
  prev.filter fun notif => notif.id != id

/-- `clearAllNotifications` (lines 345–347). -/
def clearAllNotifications : List NotificationItem := []

/-- JavaScript `x || 'Unknown Tourist'` on an optional string: `undefined`
and the empty string (both falsy) fall back to the placeholder. -/
def nameOrUnknown (name : Option String) : String :=
  match name with
  | none => "Unknown Tourist"
  | some s => if s == "" then "Unknown Tourist" else s

/-- `location.app_a857ad95a4_tourists?.name || 'Unknown Tourist'` in the
`LiveLocationMap` popup (lines 189–191) and the `TouristMonitoring` and
tourist-map rows. -/
def liveMapPopupName (location : LocationLog) : String :=
  nameOrUnknown (location.tourists.map (·.name))

/-- `incident.app_a857ad95a4_tourists?.name || 'Unknown Tourist'` in the
`IncidentsList` row (lines 257–259). -/
def incidentRowName (incident : Incident) : String :=
  nameOrUnknown (incident.tourists.map (·.name))

/-- `incidentData?.app_a857ad95a4_tourists?.name || 'Unknown Tourist'` in
the `NotificationSystem` incident handler (line 192); `incidentData` is the
fetched row, itself optional. -/
def notificationTouristName (incidentData : Option Incident) : String :=
  nameOrUnknown (incidentData.bind fun d => d.tourists.map (·.name))

/-- `efir.app_a857ad95a4_tourists?.name || 'Unknown Tourist'` in the
`EfirManagement` row (part_003, line 289). -/
def efirRowName (efir : EFir) : String :=
  nameOrUnknown (efir.tourists.map (·.name))

/-- A row of `app_a857ad95a4_alerts` as consumed by `NotificationSystem`. -/
structure SosAlert where
  id : String
  message : String
  severity : String
  latitude : Int
  longitude : Int
  created_at : Nat
  tourists : Option TouristInfo
deriving DecidableEq, Repr

/-- `alertData?.app_a857ad95a4_tourists?.name || 'Unknown Tourist'` in the
`NotificationSystem` SOS-alert handler (line 273); `alertData` is the
fetched row, itself optional. -/
def alertTouristName (alertData : Option SosAlert) : String :=
  nameOrUnknown (alertData.bind fun d => d.tourists.map (·.name))

/-- Tourist ids of an accumulated list. -/
def touristIds (acc : List LocationLog) : List String :=
  acc.map (·.tourist_id)

/-- Loop invariant for the latest-position reductions: after folding over
`processed`, the accumulator holds pairwise-distinct tourist ids, only
records drawn from the processed input, each dominating every processed
record of its tourist in timestamp, and covering every processed tourist. -/
def ReduceInv (processed acc : List LocationLog) : Prop :=
  (touristIds acc).Nodup ∧
  (∀ r ∈ acc, r ∈ processed) ∧
  (∀ r ∈ acc, ∀ l ∈ processed, l.tourist_id = r.tourist_id → l.timestamp ≤ r.timestamp) ∧
  (∀ l ∈ processed, ∃ r ∈ acc, r.tourist_id = l.tourist_id)

/-- Conditions on a reduction step that make `ReduceInv` inductive: the step
keeps tourist ids pairwise distinct, introduces only the incoming record,
covers every tourist it covered before plus the incoming one, and every kept
record either predates the step (and dominates the incoming record if they
share a tourist) or is the incoming record dominating all displaced ones. -/
structure ReductionStepSpec (step : List LocationLog → LocationLog → List LocationLog) : Prop where
  nodup : ∀ acc x, (touristIds acc).Nodup → (touristIds (step acc x)).Nodup
  mem : ∀ acc x, ∀ r ∈ step acc x, r ∈ acc ∨ r = x
  cov_old : ∀ acc x, ∀ r0 ∈ acc, ∃ r ∈ step acc x, r.tourist_id = r0.tourist_id
  cov_new : ∀ acc x, ∃ r ∈ step acc x, r.tourist_id = x.tourist_id
  max : ∀ acc x, (touristIds acc).Nodup → ∀ r ∈ step acc x,
      (r ∈ acc ∧ (r.tourist_id = x.tourist_id → x.timestamp ≤ r.timestamp)) ∨
      (r = x ∧ ∀ e ∈ acc, e.tourist_id = x.tourist_id → e.timestamp ≤ x.timestamp)

/-- The §4.1 contract of a latest-position reduction: as many output records
as distinct input tourist ids, pairwise-distinct output tourist ids, the
output tourists are exactly the input tourists, and every output record is
an input record whose timestamp dominates all input records of its
tourist. -/
def LatestReductionContract (reduce : List LocationLog → List LocationLog) : Prop :=
  ∀ ls : List LocationLog,
    (reduce ls).length = ((ls.map (·.tourist_id)).dedup).length ∧
    (touristIds (reduce ls)).Nodup ∧
    (∀ t : String, (∃ r ∈ reduce ls, r.tourist_id = t) ↔ ∃ l ∈ ls, l.tourist_id = t) ∧
    (∀ r ∈ reduce ls, r ∈ ls ∧
      ∀ l ∈ ls, l.tourist_id = r.tourist_id → l.timestamp ≤ r.timestamp)

/-! Concrete records used by scenario claims and witnesses. -/

/-- An embedded tourist row used by the concrete scenarios. -/
def touristT1 : TouristInfo :=
  { name := "Asha Rao", nationality := "IN", tourist_code := "TC-001",
    emergency_contact := "+91-100" }

/-- 09:00 log of tourist `T1`, outside any restricted zone. -/
def log0900 : LocationLog :=
  { id := "log-0900", tourist_id := "T1", latitude := 26, longitude := 92,
    timestamp := 32400000, address := none, accuracy := none,
    in_restricted_zone := false, tourists := some touristT1 }

/-- 10:00 log of tourist `T1`, inside a restricted zone. -/
def log1000 : LocationLog :=
  { id := "log-1000", tourist_id := "T1", latitude := 26, longitude := 93,
    timestamp := 36000000, address := none, accuracy := none,
    in_restricted_zone := true, tourists := some touristT1 }

/-- 11:00 log of tourist `T1`, outside any restricted zone. -/
def log1100 : LocationLog :=
  { id := "log-1100", tourist_id := "T1", latitude := 27, longitude := 93,
    timestamp := 39600000, address := none, accuracy := none,
    in_restricted_zone := false, tourists := some touristT1 }

/-- A log with no embedded tourist row. -/
def logNoTourist : LocationLog :=
  { id := "log-x", tourist_id := "T9", latitude := 0, longitude := 0,
    timestamp := 1000, address := none, accuracy := none,
    in_restricted_zone := false, tourists := none }

/-- A restricted-zone log with a very old timestamp. -/
def logOldRestricted : LocationLog :=
  { id := "log-r", tourist_id := "T2", latitude := 1, longitude := 2,
    timestamp := 0, address := none, accuracy := none,
    in_restricted_zone := true, tourists := some touristT1 }

/-- A concrete pending incident. -/
def incidentPending : Incident :=
  { id := "inc-1", user_id := "u1", tourist_id := "T1", incident_id := "INC-001",
    description := "lost bag", status := "pending", latitude := 26, longitude := 92,
    created_at := 1000, resolved_at := none, tourists := some touristT1 }

/-- A concrete incident created later than `incidentPending`, with no
embedded tourist row. -/
def incidentLater : Incident :=
  { id := "inc-2", user_id := "u1", tourist_id := "T2", incident_id := "INC-002",
    description := "injury", status := "in_review", latitude := 25, longitude := 91,
    created_at := 2000, resolved_at := none, tourists := none }

/-- A concrete E-FIR in status `Pending` (capitalised, as stored). -/
def efirPending : EFir :=
  { id := "efir-1", efir_id := "EFIR-001", tourist_id := "T1", user_id := "u1",
    reason := "missing person", description := none, status := "Pending",
    assigned_to := none, generated_at := 1000, filed_at := none,
    created_at := 1000, updated_at := 1000, tourists := some touristT1 }

/-- A concrete notification item. -/
def notifA : NotificationItem :=
  { id := "n1", type := "incident", title := "New Incident Report",
    description := "lost bag", tourist := "Asha Rao", location := "26, 92",
    timestamp := 5000, severity := "high" }

/-- A concrete E-FIR with no embedded tourist row. -/
def efirNoTourist : EFir :=
  { efirPending with id := "efir-2", efir_id := "EFIR-002", tourists := none }

/-- A concrete SOS alert with no embedded tourist row. -/
def alertNoTourist : SosAlert :=
  { id := "alert-1", message := "help", severity := "high", latitude := 26,
    longitude := 92, created_at := 4000, tourists := none }

/-! Theorems. -/

theorem reduceInv_step {step : List LocationLog → LocationLog → List LocationLog}
    (hs : ReductionStepSpec step) {processed acc : List LocationLog}
    (h : ReduceInv processed acc) (x : LocationLog) :
    ReduceInv (processed ++ [x]) (step acc x) := by
  obtain ⟨hnd, hmem, hmax, hcov⟩ := h
  refine ⟨hs.nodup acc x hnd, ?_, ?_, ?_⟩
  · intro r hr
    rcases hs.mem acc x r hr with h1 | h1
    · exact List.mem_append_left _ (hmem r h1)
    · rw [h1]
      exact List.mem_append_right _ (List.mem_singleton_self x)
  · intro r hr l hl hid
    rcases List.mem_append.mp hl with hl1 | hl1
    · rcases hs.max acc x hnd r hr with ⟨hracc, _⟩ | ⟨hrx, hdom⟩
      · exact hmax r hracc l hl1 hid
      · rw [hrx] at hid ⊢
        obtain ⟨e, he, heid⟩ := hcov l hl1
        have h1 : l.timestamp ≤ e.timestamp := hmax e he l hl1 heid.symm
        have h2 : e.timestamp ≤ x.timestamp := hdom e he (heid.trans hid)
        exact h1.trans h2
    · have hlx : l = x := List.mem_singleton.mp hl1
      rw [hlx] at hid ⊢
      rcases hs.max acc x hnd r hr with ⟨_, himp⟩ | ⟨hrx, _⟩
      · exact himp hid.symm
      · rw [hrx]
  · intro l hl
    rcases List.mem_append.mp hl with hl1 | hl1
    · obtain ⟨e, he, heid⟩ := hcov l hl1
      obtain ⟨r, hr, hrid⟩ := hs.cov_old acc x e he
      exact ⟨r, hr, hrid.trans heid⟩
    · have hlx : l = x := List.mem_singleton.mp hl1
      rw [hlx]
      exact hs.cov_new acc x

theorem reduceInv_foldl {step : List LocationLog → LocationLog → List LocationLog}
    (hs : ReductionStepSpec step) :
    ∀ (ls processed acc : List LocationLog), ReduceInv processed acc →
      ReduceInv (processed ++ ls) (ls.foldl step acc)
  | [], processed, acc, h => by simpa using h
  | x :: ls, processed, acc, h => by
      have h2 := reduceInv_foldl hs ls (processed ++ [x]) (step acc x)
        (reduceInv_step hs h x)
      simpa [List.append_assoc] using h2

theorem reduceInv_of_spec {step : List LocationLog → LocationLog → List LocationLog}
    (hs : ReductionStepSpec step) (ls : List LocationLog) :
    ReduceInv ls (ls.foldl step []) := by
  have h0 : ReduceInv ([] : List LocationLog) [] := by
    refine ⟨List.nodup_nil, ?_, ?_, ?_⟩ <;> simp
  simpa using reduceInv_foldl hs ls [] [] h0

theorem contract_of_spec {step : List LocationLog → LocationLog → List LocationLog}
    (hs : ReductionStepSpec step) :
    LatestReductionContract (fun ls => ls.foldl step []) := by
  intro ls
  obtain ⟨hnd, hmem, hmax, hcov⟩ := reduceInv_of_spec hs ls
  have hmemiff : ∀ t : String,
      (∃ r ∈ ls.foldl step [], r.tourist_id = t) ↔ ∃ l ∈ ls, l.tourist_id = t := by
    intro t
    constructor
    · rintro ⟨r, hr, rfl⟩
      exact ⟨r, hmem r hr, rfl⟩
    · rintro ⟨l, hl, rfl⟩
      obtain ⟨r, hr, hrid⟩ := hcov l hl
      exact ⟨r, hr, hrid⟩
  refine ⟨?_, hnd, hmemiff, fun r hr => ⟨hmem r hr, fun l hl hid => hmax r hr l hl hid⟩⟩
  have hperm : List.Perm (touristIds (ls.foldl step [])) ((ls.map (·.tourist_id)).dedup) := by
    refine (List.perm_ext_iff_of_nodup hnd (List.nodup_dedup _)).mpr ?_
    intro t
    rw [List.mem_dedup]
    unfold touristIds
    simp only [List.mem_map]
    constructor
    · rintro ⟨r, hr, rfl⟩
      obtain ⟨l, hl, hlid⟩ := (hmemiff r.tourist_id).mp ⟨r, hr, rfl⟩
      exact ⟨l, hl, hlid⟩
    · rintro ⟨l, hl, rfl⟩
      obtain ⟨r, hr, hrid⟩ := (hmemiff l.tourist_id).mpr ⟨l, hl, rfl⟩
      exact ⟨r, hr, hrid⟩
  have hlen := hperm.length_eq
  unfold touristIds at hlen
  rwa [List.length_map] at hlen

theorem mem_filterPush {acc : List LocationLog} {x r : LocationLog}
    (hr : r ∈ (acc.filter fun l => l.tourist_id != x.tourist_id) ++ [x]) :
    (r ∈ acc ∧ r.tourist_id ≠ x.tourist_id) ∨ r = x := by
  rcases List.mem_append.mp hr with h | h
  · have h1 := List.mem_filter.mp h
    exact Or.inl ⟨h1.1, bne_iff_ne.mp h1.2⟩
  · exact Or.inr (List.mem_singleton.mp h)

theorem nodup_ids_filterPush (acc : List LocationLog) (x : LocationLog)
    (h : (touristIds acc).Nodup) :
    (touristIds ((acc.filter fun l => l.tourist_id != x.tourist_id) ++ [x])).Nodup := by
  have hsub : List.Sublist
      ((acc.filter fun l => l.tourist_id != x.tourist_id).map (·.tourist_id))
      (acc.map (·.tourist_id)) :=
    (List.filter_sublist acc).map _
  have h1 : ((acc.filter fun l => l.tourist_id != x.tourist_id).map (·.tourist_id)).Nodup :=
    hsub.nodup h
  have h2 : x.tourist_id ∉
      (acc.filter fun l => l.tourist_id != x.tourist_id).map (·.tourist_id) := by
    intro hmem
    obtain ⟨l, hl, hlid⟩ := List.mem_map.mp hmem
    exact absurd hlid (bne_iff_ne.mp (List.mem_filter.mp hl).2)
  have h3 : touristIds ((acc.filter fun l => l.tourist_id != x.tourist_id) ++ [x]) =
      ((acc.filter fun l => l.tourist_id != x.tourist_id).map (·.tourist_id)) ++
        [x.tourist_id] := by
    simp [touristIds]
  rw [h3, (List.perm_append_singleton _ _).nodup_iff]
  exact List.nodup_cons.mpr ⟨h2, h1⟩

theorem latestStep_spec : ReductionStepSpec latestStep := by
  refine ⟨?_, ?_, ?_, ?_, ?_⟩
  · -- nodup
    intro acc x hnd
    unfold latestStep
    split
    · exact nodup_ids_filterPush acc x hnd
    · split
      · exact nodup_ids_filterPush acc x hnd
      · exact hnd
  · -- mem
    intro acc x r hr
    unfold latestStep at hr
    split at hr
    · rcases mem_filterPush hr with ⟨h1, _⟩ | h1
      · exact Or.inl h1
      · exact Or.inr h1
    · split at hr
      · rcases mem_filterPush hr with ⟨h1, _⟩ | h1
        · exact Or.inl h1
        · exact Or.inr h1
      · exact Or.inl hr
  · -- cov_old
    intro acc x r0 hr0
    unfold latestStep
    split
    · next hf =>
      have hne : r0.tourist_id ≠ x.tourist_id := by
        intro heq
        exact absurd (beq_iff_eq.mpr heq) (List.find?_eq_none.mp hf r0 hr0)
      exact ⟨r0, List.mem_append_left _ (List.mem_filter.mpr ⟨hr0, bne_iff_ne.mpr hne⟩), rfl⟩
    · split
      · by_cases hne : r0.tourist_id = x.tourist_id
        · exact ⟨x, List.mem_append_right _ (List.mem_singleton_self x), hne.symm⟩
        · exact ⟨r0, List.mem_append_left _ (List.mem_filter.mpr ⟨hr0, bne_iff_ne.mpr hne⟩),
            rfl⟩
      · exact ⟨r0, hr0, rfl⟩
  · -- cov_new
    intro acc x
    unfold latestStep
    split
    · exact ⟨x, List.mem_append_right _ (List.mem_singleton_self x), rfl⟩
    · next e0 hf =>
      split
      · exact ⟨x, List.mem_append_right _ (List.mem_singleton_self x), rfl⟩
      · refine ⟨e0, List.mem_of_find?_eq_some hf, ?_⟩
        have hp := List.find?_some hf
        simpa using hp
  · -- max
    intro acc x hnd r hr
    have hnd' : (acc.map (·.tourist_id)).Nodup := hnd
    unfold latestStep at hr
    split at hr
    · next hf =>
      rcases mem_filterPush hr with ⟨h1, h2⟩ | h1
      · exact Or.inl ⟨h1, fun h => absurd h h2⟩
      · refine Or.inr ⟨h1, ?_⟩
        intro e he heid
        exact absurd (beq_iff_eq.mpr heid) (List.find?_eq_none.mp hf e he)
    · next e0 hf =>
      have he0mem : e0 ∈ acc := List.mem_of_find?_eq_some hf
      have he0id : e0.tourist_id = x.tourist_id := by
        have hp := List.find?_some hf
        simpa using hp
      split at hr
      · next hc =>
        rcases mem_filterPush hr with ⟨h1, h2⟩ | h1
        · exact Or.inl ⟨h1, fun h => absurd h h2⟩
        · refine Or.inr ⟨h1, ?_⟩
          intro e he heid
          have heq : e = e0 :=
            List.inj_on_of_nodup_map hnd' he he0mem (heid.trans he0id.symm)
          rw [heq]
          exact Nat.le_of_lt hc
      · next hc =>
        refine Or.inl ⟨hr, ?_⟩
        intro hid
        have heq : r = e0 :=
          List.inj_on_of_nodup_map hnd' hr he0mem (hid.trans he0id.symm)
        rw [heq]
        exact Nat.le_of_not_lt hc

theorem touristIds_nil : touristIds [] = [] := rfl

theorem touristIds_cons (a : LocationLog) (l : List LocationLog) :
    touristIds (a :: l) = a.tourist_id :: touristIds l := rfl

theorem latestStepTM_nil (x : LocationLog) : latestStepTM [] x = [x] := rfl

theorem latestStepTM_cons (a : LocationLog) (as : List LocationLog) (x : LocationLog) :
    latestStepTM (a :: as) x =
      if a.tourist_id == x.tourist_id then
        if a.timestamp < x.timestamp then x :: as else a :: as
      else
        a :: latestStepTM as x := rfl

theorem latestStepTM_ids (x : LocationLog) : ∀ acc : List LocationLog,
    (x.tourist_id ∉ touristIds acc ∧
      touristIds (latestStepTM acc x) = touristIds acc ++ [x.tourist_id]) ∨
    (x.tourist_id ∈ touristIds acc ∧
      touristIds (latestStepTM acc x) = touristIds acc)
  | [] => by
      left
      refine ⟨by simp [touristIds_nil], ?_⟩
      rw [latestStepTM_nil, touristIds_cons, touristIds_nil]
      rfl
  | a :: as => by
      by_cases hb : (a.tourist_id == x.tourist_id) = true
      · have hbeq : a.tourist_id = x.tourist_id := beq_iff_eq.mp hb
        right
        refine ⟨by rw [touristIds_cons, hbeq]; exact List.mem_cons_self _ _, ?_⟩
        rw [latestStepTM_cons, if_pos hb]
        by_cases hc : a.timestamp < x.timestamp
        · rw [if_pos hc, touristIds_cons, touristIds_cons, hbeq]
        · rw [if_neg hc]
      · have hbne : a.tourist_id ≠ x.tourist_id := by simpa using hb
        rcases latestStepTM_ids x as with ⟨hnm, heq⟩ | ⟨hm, heq⟩
        · left
          constructor
          · rw [touristIds_cons]
            intro hmem
            rcases List.mem_cons.mp hmem with h | h
            · exact hbne h.symm
            · exact hnm h
          · rw [latestStepTM_cons, if_neg hb, touristIds_cons, heq, touristIds_cons,
              List.cons_append]
        · right
          refine ⟨by rw [touristIds_cons]; exact List.mem_cons_of_mem _ hm, ?_⟩
          rw [latestStepTM_cons, if_neg hb, touristIds_cons, heq, touristIds_cons]

theorem latestStepTM_nodup (acc : List LocationLog) (x : LocationLog)
    (h : (touristIds acc).Nodup) : (touristIds (latestStepTM acc x)).Nodup := by
  rcases latestStepTM_ids x acc with ⟨hnm, heq⟩ | ⟨_, heq⟩
  · rw [heq, (List.perm_append_singleton _ _).nodup_iff]
    exact List.nodup_cons.mpr ⟨hnm, h⟩
  · rw [heq]
    exact h

theorem latestStepTM_mem (x : LocationLog) : ∀ acc : List LocationLog,
    ∀ r ∈ latestStepTM acc x, r ∈ acc ∨ r = x
  | [] => by
      intro r hr
      rw [latestStepTM_nil] at hr
      exact Or.inr (List.mem_singleton.mp hr)
  | a :: as => by
      intro r hr
      rw [latestStepTM_cons] at hr
      by_cases hb : (a.tourist_id == x.tourist_id) = true
      · rw [if_pos hb] at hr
        by_cases hc : a.timestamp < x.timestamp
        · rw [if_pos hc] at hr
          rcases List.mem_cons.mp hr with h | h
          · exact Or.inr h
          · exact Or.inl (List.mem_cons_of_mem _ h)
        · rw [if_neg hc] at hr
          exact Or.inl hr
      · rw [if_neg hb] at hr
        rcases List.mem_cons.mp hr with h | h
        · exact Or.inl (by rw [h]; exact List.mem_cons_self a as)
        · rcases latestStepTM_mem x as r h with h1 | h1
          · exact Or.inl (List.mem_cons_of_mem _ h1)
          · exact Or.inr h1

theorem latestStepTM_cov_old (x : LocationLog) : ∀ acc : List LocationLog,
    ∀ r0 ∈ acc, ∃ r ∈ latestStepTM acc x, r.tourist_id = r0.tourist_id
  | [] => by
      intro r0 hr0
      exact absurd hr0 (List.not_mem_nil r0)
  | a :: as => by
      intro r0 hr0
      rw [latestStepTM_cons]
      by_cases hb : (a.tourist_id == x.tourist_id) = true
      · have hbeq : a.tourist_id = x.tourist_id := beq_iff_eq.mp hb
        rw [if_pos hb]
        by_cases hc : a.timestamp < x.timestamp
        · rw [if_pos hc]
          rcases List.mem_cons.mp hr0 with h | h
          · exact ⟨x, List.mem_cons_self x as, by rw [h]; exact hbeq.symm⟩
          · exact ⟨r0, List.mem_cons_of_mem _ h, rfl⟩
        · rw [if_neg hc]
          exact ⟨r0, hr0, rfl⟩
      · rw [if_neg hb]
        rcases List.mem_cons.mp hr0 with h | h
        · exact ⟨a, List.mem_cons_self a _, by rw [h]⟩
        · obtain ⟨r, hr, hrid⟩ := latestStepTM_cov_old x as r0 h
          exact ⟨r, List.mem_cons_of_mem _ hr, hrid⟩

theorem latestStepTM_cov_new (x : LocationLog) : ∀ acc : List LocationLog,
    ∃ r ∈ latestStepTM acc x, r.tourist_id = x.tourist_id
  | [] =>
      ⟨x, by rw [latestStepTM_nil]; exact List.mem_singleton_self x, rfl⟩
  | a :: as => by
      rw [latestStepTM_cons]
      by_cases hb : (a.tourist_id == x.tourist_id) = true
      · rw [if_pos hb]
        by_cases hc : a.timestamp < x.timestamp
        · rw [if_pos hc]
          exact ⟨x, List.mem_cons_self x as, rfl⟩
        · rw [if_neg hc]
          exact ⟨a, List.mem_cons_self a as, beq_iff_eq.mp hb⟩
      · rw [if_neg hb]
        obtain ⟨r, hr, hrid⟩ := latestStepTM_cov_new x as
        exact ⟨r, List.mem_cons_of_mem _ hr, hrid⟩

theorem latestStepTM_max (x : LocationLog) : ∀ acc : List LocationLog,
    (touristIds acc).Nodup → ∀ r ∈ latestStepTM acc x,
      (r ∈ acc ∧ (r.tourist_id = x.tourist_id → x.timestamp ≤ r.timestamp)) ∨
      (r = x ∧ ∀ e ∈ acc, e.tourist_id = x.tourist_id → e.timestamp ≤ x.timestamp)
  | [] => by
      intro _ r hr
      rw [latestStepTM_nil] at hr
      refine Or.inr ⟨List.mem_singleton.mp hr, ?_⟩
      intro e he
      exact absurd he (List.not_mem_nil e)
  | a :: as => by
      intro hnd r hr
      rw [touristIds_cons, List.nodup_cons] at hnd
      obtain ⟨hanotin, hndas⟩ := hnd
      rw [latestStepTM_cons] at hr
      by_cases hb : (a.tourist_id == x.tourist_id) = true
      · have hbeq : a.tourist_id = x.tourist_id := beq_iff_eq.mp hb
        rw [if_pos hb] at hr
        by_cases hc : a.timestamp < x.timestamp
        · rw [if_pos hc] at hr
          rcases List.mem_cons.mp hr with h | h
          · refine Or.inr ⟨h, ?_⟩
            intro e he heid
            rcases List.mem_cons.mp he with h1 | h1
            · rw [h1]
              exact Nat.le_of_lt hc
            · exact absurd
                (List.mem_map.mpr ⟨e, h1, heid.trans hbeq.symm⟩ :
                  a.tourist_id ∈ touristIds as) hanotin
          · refine Or.inl ⟨List.mem_cons_of_mem _ h, ?_⟩
            intro hid
            exact absurd
              (List.mem_map.mpr ⟨r, h, hid.trans hbeq.symm⟩ :
                a.tourist_id ∈ touristIds as) hanotin
        · rw [if_neg hc] at hr
          rcases List.mem_cons.mp hr with h | h
          · refine Or.inl ⟨by rw [h]; exact List.mem_cons_self a as, ?_⟩
            intro _
            rw [h]
            exact Nat.le_of_not_lt hc
          · refine Or.inl ⟨List.mem_cons_of_mem _ h, ?_⟩
            intro hid
            exact absurd
              (List.mem_map.mpr ⟨r, h, hid.trans hbeq.symm⟩ :
                a.tourist_id ∈ touristIds as) hanotin
      · have hbne : a.tourist_id ≠ x.tourist_id := by simpa using hb
        rw [if_neg hb] at hr
        rcases List.mem_cons.mp hr with h | h
        · refine Or.inl ⟨by rw [h]; exact List.mem_cons_self a as, ?_⟩
          intro hid
          rw [h] at hid
          exact absurd hid hbne
        · rcases latestStepTM_max x as hndas r h with ⟨h1, h2⟩ | ⟨h1, h2⟩
          · exact Or.inl ⟨List.mem_cons_of_mem _ h1, h2⟩
          · refine Or.inr ⟨h1, ?_⟩
            intro e he heid
            rcases List.mem_cons.mp he with he1 | he1
            · rw [he1] at heid
              exact absurd heid hbne
            · exact h2 e he1 heid

theorem latestStepTM_spec : ReductionStepSpec latestStepTM :=
  ⟨fun acc x => latestStepTM_nodup acc x,
   fun acc x => latestStepTM_mem x acc,
   fun acc x => latestStepTM_cov_old x acc,
   fun acc x => latestStepTM_cov_new x acc,
   fun acc x => latestStepTM_max x acc⟩

/-- C1: for every finite input list of location logs, both latest-position
reductions (`latestLocationsByTourist` of the map views, and the
`findIndex`-based `latestLocationsTM` of `TouristMonitoring`) return exactly
one record per distinct `tourist_id` — as many records as distinct ids, with
pairwise-distinct ids covering exactly the input's ids — and every returned
record is an input record whose timestamp is greater than or equal to the
timestamp of every input record with the same `tourist_id`. -/
theorem latest_reduction_one_per_tourist :
    LatestReductionContract latestLocationsByTourist ∧
    LatestReductionContract latestLocationsTM := by
  constructor
  · intro ls
    exact contract_of_spec latestStep_spec ls
  · intro ls
    exact contract_of_spec latestStepTM_spec ls

/-- Witness for `latest_reduction_one_per_tourist` at a concrete two-record
input for one tourist. -/
theorem latest_reduction_one_per_tourist_witness :
    (latestLocationsByTourist [log0900, log1100]).length = 1 ∧
    (latestLocationsTM [log0900, log1100]).length = 1 ∧
    log0900.timestamp ≤ log1100.timestamp := by
  have h := latest_reduction_one_per_tourist
  refine ⟨?_, ?_, ?_⟩
  · exact ((h.1 [log0900, log1100]).1).trans (by decide)
  · exact ((h.2 [log0900, log1100]).1).trans (by decide)
  · have h4 := (h.1 [log0900, log1100]).2.2.2 log1100 (by decide)
    exact h4.2 log0900 (by decide) (by decide)

/-- C2: whenever `in_restricted_zone` is set, every classification function
returns the restricted classification, whatever `now` and the record's
timestamp are — the restricted-zone branch is checked first and overrides
staleness. -/
theorem restricted_overrides_staleness (now : Nat) (location : LocationLog)
    (h : location.in_restricted_zone = true) :
    getLocationStatus now location = .restricted ∧
    (getLocationStatusTM now location).status = "Restricted Zone" ∧
    getMarkerColor now location = "#ef4444" := by
  refine ⟨?_, ?_, ?_⟩ <;>
    simp [getLocationStatus, getLocationStatusTM, getMarkerColor, h]

/-- Witness for `restricted_overrides_staleness`: a restricted-zone record
whose timestamp is far more than six hours old. -/
theorem restricted_overrides_staleness_witness :
    getLocationStatus 100000000000 logOldRestricted = .restricted ∧
    (getLocationStatusTM 100000000000 logOldRestricted).status = "Restricted Zone" ∧
    getMarkerColor 100000000000 logOldRestricted = "#ef4444" :=
  restricted_overrides_staleness 100000000000 logOldRestricted (by decide)

/-- C3: for a record outside restricted zones, every classification function
reports staleness exactly when `now − timestamp` strictly exceeds six hours,
and at an age of exactly six hours reports safe. -/
theorem stale_iff_strictly_over_six_hours (now : Nat) (location : LocationLog)
    (h : location.in_restricted_zone = false) :
    (getLocationStatus now location = .outdated ↔
      sixHoursMs < (now : Int) - (location.timestamp : Int)) ∧
    ((getLocationStatusTM now location).status = "Outdated" ↔
      sixHoursMs < (now : Int) - (location.timestamp : Int)) ∧
    (getMarkerColor now location = "#6b7280" ↔
      sixHoursMs < (now : Int) - (location.timestamp : Int)) ∧
    ((now : Int) - (location.timestamp : Int) = sixHoursMs →
      getLocationStatus now location = .safe ∧
      (getLocationStatusTM now location).status = "Safe" ∧
      getMarkerColor now location = "#22c55e") := by
  by_cases hs : sixHoursMs < (now : Int) - (location.timestamp : Int)
  · refine ⟨?_, ?_, ?_, ?_⟩
    · simp [getLocationStatus, isStale, h, hs]
    · simp [getLocationStatusTM, isStale, h, hs]
    · simp [getMarkerColor, isStale, h, hs]
    · intro heq
      rw [heq] at hs
      exact absurd hs (lt_irrefl _)
  · refine ⟨?_, ?_, ?_, ?_⟩
    · simp [getLocationStatus, isStale, h, hs]
    · simp [getLocationStatusTM, isStale, h, hs]
    · simp [getMarkerColor, isStale, h, hs]
    · intro _
      refine ⟨?_, ?_, ?_⟩ <;>
        simp [getLocationStatus, getLocationStatusTM, getMarkerColor, isStale, h, hs]

/-- Witness for `stale_iff_strictly_over_six_hours`: at exactly six hours
the 11:00 record is safe; one millisecond later it is outdated. -/
theorem stale_iff_strictly_over_six_hours_witness :
    getLocationStatus 61200000 log1100 = .safe ∧
    getLocationStatus 61200001 log1100 = .outdated := by
  have h1 := stale_iff_strictly_over_six_hours 61200000 log1100 (by decide)
  have h2 := stale_iff_strictly_over_six_hours 61200001 log1100 (by decide)
  exact ⟨(h1.2.2.2 (by decide)).1, (h2.1).mpr (by decide)⟩

/-- C4: for the three T1 logs at 09:00 (safe), 10:00 (restricted) and 11:00
(safe), both reductions return exactly the 11:00 record — in fetch order and
in reverse order — and, for any `now` at most six hours past 11:00, that
record classifies safe: the older restricted record does not stick. -/
theorem scenario_t1_latest_is_safe (now : Nat)
    (h : (now : Int) - (log1100.timestamp : Int) ≤ sixHoursMs) :
    latestLocationsByTourist [log0900, log1000, log1100] = [log1100] ∧
    latestLocationsTM [log0900, log1000, log1100] = [log1100] ∧
    latestLocationsByTourist [log1100, log1000, log0900] = [log1100] ∧
    latestLocationsTM [log1100, log1000, log0900] = [log1100] ∧
    getLocationStatus now log1100 = .safe ∧
    getMarkerColor now log1100 = "#22c55e" := by
  have hs : ¬ sixHoursMs < (now : Int) - (log1100.timestamp : Int) := not_lt.mpr h
  have hstale : isStale now log1100.timestamp = false := by
    unfold isStale
    exact decide_eq_false hs
  refine ⟨by decide, by decide, by decide, by decide, ?_, ?_⟩
  · simp [getLocationStatus, hstale, show log1100.in_restricted_zone = false from rfl]
  · simp [getMarkerColor, hstale, show log1100.in_restricted_zone = false from rfl]

/-- Witness for `scenario_t1_latest_is_safe` with `now` equal to the 11:00
timestamp. -/
theorem scenario_t1_latest_is_safe_witness :
    latestLocationsByTourist [log0900, log1000, log1100] = [log1100] ∧
    getLocationStatus 39600000 log1100 = .safe :=
  let h := scenario_t1_latest_is_safe 39600000 (by decide)
  ⟨h.1, h.2.2.2.2.1⟩

/-- C6 as stated fails on the E-FIR view: with selected status `pending`,
the filter returns the record stored with status `Pending`, whose status
field is not equal to the selected value. -/
theorem status_filter_counterexample :
    filterEfirsByStatus "pending" [efirPending] = [efirPending] ∧
    efirPending.status ≠ "pending" := by
  constructor
  · decide
  · decide

/-- C6 (amended): for every selected status other than `all`, the incidents
status filter keeps exactly the records whose status field is string-equal
(case-sensitively) to the selected value, while the E-FIR status filter
keeps exactly the records whose lowercased status field is string-equal to
the selected value. -/
theorem status_filter_exact (statusFilter : String)
    (h : statusFilter ≠ "all") (incidents : List Incident) (efirs : List EFir) :
    (∀ i : Incident, i ∈ filterIncidentsByStatus statusFilter incidents ↔
      i ∈ incidents ∧ i.status = statusFilter) ∧
    (∀ e : EFir, e ∈ filterEfirsByStatus statusFilter efirs ↔
      e ∈ efirs ∧ toLowerCase e.status = statusFilter) := by
  have hb : (statusFilter != "all") = true := bne_iff_ne.mpr h
  constructor
  · intro i
    unfold filterIncidentsByStatus
    rw [if_pos hb]
    simp [List.mem_filter]
  · intro e
    unfold filterEfirsByStatus
    rw [if_pos hb]
    simp [List.mem_filter]

/-- Witness for `status_filter_exact` on concrete collections. -/
theorem status_filter_exact_witness :
    incidentPending ∈ filterIncidentsByStatus "pending" [incidentPending, incidentLater] ∧
    efirPending ∈ filterEfirsByStatus "pending" [efirPending] := by
  have h := status_filter_exact "pending" (by decide)
    [incidentPending, incidentLater] [efirPending]
  exact ⟨(h.1 incidentPending).mpr ⟨by decide, by decide⟩,
    (h.2 efirPending).mpr ⟨by decide, by decide⟩⟩

/-- C7: the E-FIR view only exposes forward transitions — `Pending` offers
exactly the move to `Filed`, `Filed` exactly the move to `Resolved`,
`Resolved` none, no direct `Pending` → `Resolved` action exists, and the
transition to `Filed` sets `filed_at`. -/
theorem efir_forward_only_transitions :
    efirAvailableActions "Pending" = ["Filed"] ∧
    efirAvailableActions "Filed" = ["Resolved"] ∧
    efirAvailableActions "Resolved" = [] ∧
    (efirAvailableActions "Pending").contains "Resolved" = false ∧
    (∀ now : Nat, (mkEfirUpdate now "Filed").filed_at = some now ∧
      (mkEfirUpdate now "Filed").status = "Filed") := by
  refine ⟨by decide, by decide, by decide, by decide, ?_⟩
  intro now
  exact ⟨rfl, rfl⟩

/-- C8: every view that renders a tourist name falls back to the
placeholder `Unknown Tourist` when the embedded tourist row is absent. -/
theorem missing_tourist_renders_placeholder
    (location : LocationLog) (incident : Incident) (efir : EFir) (alert : SosAlert)
    (h1 : location.tourists = none) (h2 : incident.tourists = none)
    (h3 : efir.tourists = none) (h4 : alert.tourists = none) :
    liveMapPopupName location = "Unknown Tourist" ∧
    incidentRowName incident = "Unknown Tourist" ∧
    notificationTouristName (some incident) = "Unknown Tourist" ∧
    notificationTouristName none = "Unknown Tourist" ∧
    alertTouristName (some alert) = "Unknown Tourist" ∧
    alertTouristName none = "Unknown Tourist" ∧
    efirRowName efir = "Unknown Tourist" := by
  refine ⟨?_, ?_, ?_, rfl, ?_, rfl, ?_⟩ <;>
    simp [liveMapPopupName, incidentRowName, notificationTouristName, alertTouristName,
      efirRowName, nameOrUnknown, h1, h2, h3, h4]

/-- Witness for `missing_tourist_renders_placeholder` at concrete records
with no embedded tourist row. -/
theorem missing_tourist_renders_placeholder_witness :
    liveMapPopupName logNoTourist = "Unknown Tourist" ∧
    incidentRowName incidentLater = "Unknown Tourist" ∧
    alertTouristName (some alertNoTourist) = "Unknown Tourist" ∧
    efirRowName efirNoTourist = "Unknown Tourist" :=
  let h := missing_tourist_renders_placeholder logNoTourist incidentLater efirNoTourist
    alertNoTourist rfl rfl rfl rfl
  ⟨h.1, h.2.1, h.2.2.2.2.1, h.2.2.2.2.2.2⟩

/-- C9: the notification list never holds more than ten entries — an
insertion prepends the new item to at most the first nine existing ones and
so yields at most ten, removal only shrinks the list, and clearing empties
it. -/
theorem notifications_bounded_by_ten :
    (∀ (n : NotificationItem) (prev : List NotificationItem),
      insertNotification n prev = n :: prev.take 9 ∧
      (prev.take 9).length ≤ 9 ∧
      (insertNotification n prev).length ≤ 10) ∧
    (∀ (id : String) (l : List NotificationItem),
      (removeNotification id l).length ≤ l.length ∧
      (l.length ≤ 10 → (removeNotification id l).length ≤ 10)) ∧
    clearAllNotifications.length ≤ 10 := by
  refine ⟨?_, ?_, by decide⟩
  · intro n prev
    refine ⟨rfl, ?_, ?_⟩
    · simp
    · simp [insertNotification]
  · intro id l
    have hle : (removeNotification id l).length ≤ l.length := by
      unfold removeNotification
      exact List.length_filter_le _ _
    exact ⟨hle, fun h => hle.trans h⟩

/-- Witness for `notifications_bounded_by_ten` on concrete lists. -/
theorem notifications_bounded_by_ten_witness :
    (insertNotification notifA []).length ≤ 10 ∧
    (removeNotification "n1" [notifA]).length ≤ 10 := by
  have h := notifications_bounded_by_ten
  exact ⟨(h.1 notifA []).2.2, (h.2.1 "n1" [notifA]).2 (by decide)⟩

/-- C10: the incident status update payload carries exactly `status`, plus
`resolved_at` exactly when the new status is `resolved`; applying it leaves
every other column of the row unchanged. -/
theorem incident_update_touches_only_status_and_resolved_at
    (now : Nat) (newStatus : String) (i : Incident) :
    (mkIncidentUpdate now newStatus).status = newStatus ∧
    (mkIncidentUpdate now newStatus).resolved_at =
      (if newStatus == "resolved" then some now else none) ∧
    (applyIncidentUpdate (mkIncidentUpdate now newStatus) i).status = newStatus ∧
    (applyIncidentUpdate (mkIncidentUpdate now newStatus) i).resolved_at =
      (if newStatus == "resolved" then some now else i.resolved_at) ∧
    (applyIncidentUpdate (mkIncidentUpdate now newStatus) i).id = i.id ∧
    (applyIncidentUpdate (mkIncidentUpdate now newStatus) i).user_id = i.user_id ∧
    (applyIncidentUpdate (mkIncidentUpdate now newStatus) i).tourist_id = i.tourist_id ∧
    (applyIncidentUpdate (mkIncidentUpdate now newStatus) i).incident_id = i.incident_id ∧
    (applyIncidentUpdate (mkIncidentUpdate now newStatus) i).description = i.description ∧
    (applyIncidentUpdate (mkIncidentUpdate now newStatus) i).latitude = i.latitude ∧
    (applyIncidentUpdate (mkIncidentUpdate now newStatus) i).longitude = i.longitude ∧
    (applyIncidentUpdate (mkIncidentUpdate now newStatus) i).created_at = i.created_at ∧
    (applyIncidentUpdate (mkIncidentUpdate now newStatus) i).tourists = i.tourists := by
  unfold mkIncidentUpdate applyIncidentUpdate
  by_cases hb : (newStatus == "resolved") = true
  · simp [hb]
  · simp only [Bool.not_eq_true] at hb
    simp [hb]

theorem incidentLe_true_iff (a b : Incident) :
    incidentLe true a b = true ↔ a.created_at ≤ b.created_at := by
  simp only [incidentLe, compareByCreatedAt, decide_eq_true_eq]
  split_ifs <;> constructor <;> intro <;> omega

theorem incidentLe_false_iff (a b : Incident) :
    incidentLe false a b = true ↔ b.created_at ≤ a.created_at := by
  simp only [incidentLe, compareByCreatedAt, decide_eq_true_eq, Bool.false_eq_true,
    if_false]
  split_ifs <;> constructor <;> intro <;> omega

theorem incidentLe_trans (asc : Bool) (a b c : Incident)
    (h1 : incidentLe asc a b) (h2 : incidentLe asc b c) : incidentLe asc a c := by
  cases asc
  · rw [incidentLe_false_iff] at h1 h2 ⊢
    exact h2.trans h1
  · rw [incidentLe_true_iff] at h1 h2 ⊢
    exact h1.trans h2

theorem incidentLe_total (asc : Bool) (a b : Incident) :
    incidentLe asc a b || incidentLe asc b a := by
  cases asc
  · rw [Bool.or_eq_true, incidentLe_false_iff, incidentLe_false_iff]
    omega
  · rw [Bool.or_eq_true, incidentLe_true_iff, incidentLe_true_iff]
    omega

theorem sorted_strict_unique {l₁ l₂ : List Incident}
    (hp : List.Perm l₁ l₂)
    (h₁ : l₁.Pairwise fun a b => a.created_at < b.created_at)
    (h₂ : l₂.Pairwise fun a b => a.created_at < b.created_at) : l₁ = l₂ := by
  haveI : IsAntisymm Incident (fun a b => a.created_at < b.created_at) :=
    ⟨fun a b hab hba => absurd hba (Nat.lt_asymm hab)⟩
  exact List.eq_of_perm_of_sorted hp h₁ h₂

/-- C5: on a collection with pairwise-distinct `created_at` values, sorting
by `created_at` ascending and sorting it descending produce exactly
reversed lists. -/
theorem sort_asc_desc_reverse (incidents : List Incident)
    (h : incidents.Pairwise fun a b => a.created_at ≠ b.created_at) :
    sortIncidentsByCreatedAt true incidents =
      (sortIncidentsByCreatedAt false incidents).reverse := by
  unfold sortIncidentsByCreatedAt
  have hpt : List.Perm (List.mergeSort incidents (incidentLe true)) incidents :=
    List.mergeSort_perm incidents _
  have hpf : List.Perm (List.mergeSort incidents (incidentLe false)) incidents :=
    List.mergeSort_perm incidents _
  have hperm : List.Perm (List.mergeSort incidents (incidentLe true))
      ((List.mergeSort incidents (incidentLe false)).reverse) :=
    hpt.trans (hpf.symm.trans (List.reverse_perm _).symm)
  have hne_t : (List.mergeSort incidents (incidentLe true)).Pairwise
      (fun a b => a.created_at ≠ b.created_at) :=
    (List.Perm.pairwise_iff (fun hxy => hxy.symm) hpt).mpr h
  have hne_f : (List.mergeSort incidents (incidentLe false)).Pairwise
      (fun a b => a.created_at ≠ b.created_at) :=
    (List.Perm.pairwise_iff (fun hxy => hxy.symm) hpf).mpr h
  have hs_t : (List.mergeSort incidents (incidentLe true)).Pairwise
      (fun a b => incidentLe true a b = true) :=
    List.sorted_mergeSort (fun a b c hab hbc => incidentLe_trans true a b c hab hbc)
      (fun a b => incidentLe_total true a b) incidents
  have hs_f : (List.mergeSort incidents (incidentLe false)).Pairwise
      (fun a b => incidentLe false a b = true) :=
    List.sorted_mergeSort (fun a b c hab hbc => incidentLe_trans false a b c hab hbc)
      (fun a b => incidentLe_total false a b) incidents
  have hst : (List.mergeSort incidents (incidentLe true)).Pairwise
      (fun a b => a.created_at < b.created_at) :=
    List.Pairwise.imp
      (fun hab => Nat.lt_of_le_of_ne ((incidentLe_true_iff _ _).mp hab.1) hab.2)
      (hs_t.and hne_t)
  have hsf : (List.mergeSort incidents (incidentLe false)).Pairwise
      (fun a b => b.created_at < a.created_at) :=
    List.Pairwise.imp
      (fun hab => Nat.lt_of_le_of_ne ((incidentLe_false_iff _ _).mp hab.1) (Ne.symm hab.2))
      (hs_f.and hne_f)
  have hst_rev : ((List.mergeSort incidents (incidentLe false)).reverse).Pairwise
      (fun a b => a.created_at < b.created_at) :=
    List.pairwise_reverse.mpr hsf
  exact sorted_strict_unique hperm hst hst_rev

/-- Witness for `sort_asc_desc_reverse` on a concrete two-element
collection with distinct `created_at` values. -/
theorem sort_asc_desc_reverse_witness :
    sortIncidentsByCreatedAt true [incidentLater, incidentPending] =
      (sortIncidentsByCreatedAt false [incidentLater, incidentPending]).reverse :=
  sort_asc_desc_reverse [incidentLater, incidentPending] (by decide)

end SafeTouristWatch
